import Mathlib

/-!
# node-hci-socket: a shallow embedding of `src/hci-socket.cpp`

The native class `HciSocket` is embedded as a record of its three fields plus the
reference count it inherits from `Napi::ObjectWrap`.  Every member function becomes a
pure function from the receiver, the JavaScript arguments and the results of the
system/library calls it makes (given as an oracle record) to the new receiver, the
JavaScript completion and the ordered list of externally visible effects (system calls,
libuv calls, calls of the stored JavaScript callback, `Ref`/`Unref`).

Conventions
* `uint8_t` is `Fin 256`; `int`, `ssize_t` are `Int`; `uint16_t`, `size_t` are `Nat`.
* A JavaScript number (an IEEE-754 double) is `JsNumber`: NaN, the two infinities, or an
  exact rational (every finite double is a rational; `-0` is identified with `0`, which
  no comparison in the source distinguishes).
* The stored callback is an observer: what the JavaScript function does when called is
  outside the native code, so a call is recorded in the effect list.  An exception raised
  by it stays pending in the environment (the source tests `IsExceptionPending`) and does
  not unwind the native function.
* A bounded loop of the source takes a `fuel` argument bounding its iterations.
-/

namespace Hci

/-! ## Constants of the source -/

def BTPROTO_HCI : Nat := 1
def HCI_MAX_DEV : Nat := 16
def HCI_CHANNEL_USER : Nat := 1
def HCI_MAX_FRAME_SIZE : Nat := 1028
/-- Value of errno for an interrupted system call on Linux. -/
def EINTR : Int := 4
/-- Event mask of libuv: `UV_READABLE = 1`, `UV_DISCONNECT = 4`. -/
def UV_READABLE : Nat := 1
def UV_DISCONNECT : Nat := 4

abbrev Byte := Fin 256

/-! ## JavaScript values -/

/-- Identity of a JavaScript function object. -/
structure JsFunction where
  id : Nat
deriving DecidableEq, Repr

/-- An IEEE-754 double as seen by the comparisons of the source. -/
inductive JsNumber where
  | nan
  | inf (negative : Bool)
  | fin (q : ℚ)
deriving DecidableEq

inductive JsValue where
  | undefined
  | boolean (b : Bool)
  | number (x : JsNumber)
  | string (s : String)
  | function (f : JsFunction)
  | buffer (data : List Byte)
deriving DecidableEq

def JsValue.IsNumber : JsValue → Bool
  | .number _ => true
  | _ => false

def JsValue.IsFunction : JsValue → Bool
  | .function _ => true
  | _ => false

def JsValue.IsBuffer : JsValue → Bool
  | .buffer _ => true
  | _ => false

/-- IEEE `x != y`. -/
def JsNumber.ne : JsNumber → JsNumber → Bool
  | .nan, _ => true
  | _, .nan => true
  | .inf a, .inf b => a != b
  | .inf _, .fin _ => true
  | .fin _, .inf _ => true
  | .fin p, .fin q => decide (p ≠ q)

/-- IEEE `x < y`. -/
def JsNumber.lt : JsNumber → JsNumber → Bool
  | .nan, _ => false
  | _, .nan => false
  | .inf a, .inf b => a && !b
  | .inf a, .fin _ => a
  | .fin _, .inf b => !b
  | .fin p, .fin q => decide (p < q)

/-- IEEE `x >= y`. -/
def JsNumber.ge : JsNumber → JsNumber → Bool
  | .nan, _ => false
  | _, .nan => false
  | .inf a, .inf b => !a || b
  | .inf a, .fin _ => !a
  | .fin _, .inf b => b
  | .fin p, .fin q => decide (q ≤ p)

/-- Nearest integer, ties to the even one. -/
def roundHalfEven (q : ℚ) : ℤ :=
  let f := ⌊q⌋
  let r := q - f
  if r < 1 / 2 then f
  else if 1 / 2 < r then f + 1
  else if f % 2 = 0 then f else f + 1

/-- Conversion of a double to `float` (binary32: 24 significant bits, least exponent of
a unit in the last place `-149`, overflow to infinity from `2^128`), rounding to nearest,
ties to even.  This is the implicit conversion of the argument of `floorf`. -/
def toFloat32 : JsNumber → JsNumber
  | .nan => .nan
  | .inf s => .inf s
  | .fin q =>
    if q = 0 then .fin 0
    else
      let e : ℤ := Int.log 2 |q|
      let p : ℤ := max (e - 23) (-149)
      let m : ℤ := roundHalfEven (|q| / (2 : ℚ) ^ p)
      let r : ℚ := (m : ℚ) * (2 : ℚ) ^ p
      if (2 : ℚ) ^ (128 : ℕ) ≤ r then .inf (decide (q < 0))
      else .fin (if q < 0 then -r else r)

/-- The C function `floorf` applied to a double: convert to `float`, round down. -/
def floorf (x : JsNumber) : JsNumber :=
  match toFloat32 x with
  | .fin r => .fin (⌊r⌋ : ℤ)
  | y => y

/-- The cast `(uint16_t)x` for a double whose truncation is in range. -/
def toUint16 : JsNumber → Nat
  | .fin q => (Int.toNat ⌊q⌋) % 65536
  | _ => 0

/-! ## The object and its effects -/

/-- Fields of `class HciSocket`; `refs` is the count moved by `Ref()`/`Unref()`.
A never assigned `poll_handle` and an empty `callback` reference are `none`. -/
structure HciSocket where
  sk : Int
  poll_handle : Option Nat
  callback : Option JsFunction
  refs : Nat
deriving DecidableEq, Repr

/-- The constructor: `this->sk = -1`. -/
def HciSocket.new : HciSocket :=
  { sk := -1, poll_handle := none, callback := none, refs := 0 }

/-- Externally visible actions, in program order. -/
inductive Effect where
  | sys_socket (ret : Int)
  | sys_bind (fd : Int) (hci_dev : Nat) (hci_channel : Nat) (ret : Int)
  | sys_close (fd : Int)
  | sys_poll (fd : Int) (ret : Int)
  | sys_write (fd : Int) (data : List Byte) (ret : Int)
  | sys_read (fd : Int) (count : Nat) (ret : Int)
  | ioctl_devlist (fd : Int) (dev_num : Nat)
  | ioctl_devinfo (fd : Int) (dev_id : Nat)
  | malloc (p : Nat)
  | free (p : Nat)
  | uv_poll_init (h : Option Nat) (fd : Int) (ret : Int)
  | uv_poll_start (h : Option Nat) (events : Nat)
  | uv_poll_stop (h : Option Nat)
  | uv_close_free (h : Option Nat)
  | callback_call (f : Option JsFunction) (arg : Option (List Byte))
  | callback_persist (f : JsFunction)
  | callback_reset
  | ref
  | unref
  | fatal_exception
deriving DecidableEq

/-- How a native method completes towards JavaScript. -/
inductive Completion where
  | throwTypeError (msg : String)
  | throwError (msg : String)
  | number (n : Int)
  | undefined
deriving DecidableEq

/-! ## `HciSocket::Bind` -/

/-- Results of the calls `Bind` makes. -/
structure BindOracle where
  socket : Int
  bind : Int
  errno : Int
  malloc : Nat
  uv_poll_init : Int
deriving DecidableEq

def HciSocket.Bind (me : HciSocket) (info : List JsValue) (o : BindOracle) :
    HciSocket × Completion × List Effect :=
  match info.head? with
  | some (.number x) =>
    if (floorf x).ne x then
      (me, .throwTypeError "Wrong first arg type, must be integer", [])
    else if x.lt (.fin 0) || x.ge (.fin 0xffff) then
      (me, .throwTypeError "Wrong first arg type, must be integer between 0 and 0xfffe", [])
    else
      let dev_num := toUint16 x
      match info.tail.head? with
      | some (.function f) =>
        if me.sk ≠ -1 then
          (me, .throwError "Socket already bound", [])
        else
          let sk := o.socket
          if sk < 0 then
            (me, .number (-o.errno), [.sys_socket sk])
          else if o.bind = -1 then
            (me, .number (-o.errno),
              [.sys_socket sk, .sys_bind sk dev_num HCI_CHANNEL_USER o.bind, .sys_close sk])
          else
            let me1 := { me with poll_handle := some o.malloc }
            let res := o.uv_poll_init
            if res ≠ 0 then
              (me1, .number res,
                [.sys_socket sk, .sys_bind sk dev_num HCI_CHANNEL_USER o.bind,
                 .malloc o.malloc, .uv_poll_init me1.poll_handle sk res, .sys_close sk])
            else
              ({ me1 with sk := sk, callback := some f, refs := me1.refs + 1 },
                .number 0,
                [.sys_socket sk, .sys_bind sk dev_num HCI_CHANNEL_USER o.bind,
                 .malloc o.malloc, .uv_poll_init me1.poll_handle sk res,
                 .uv_poll_start me1.poll_handle (UV_READABLE ||| UV_DISCONNECT),
                 .callback_persist f, .ref])
      | _ => (me, .throwTypeError "Wrong first arg type, must be function", [])
  | _ => (me, .throwTypeError "Wrong first arg type, must be integer", [])

/-! ## `HciSocket::Write` -/

/-- Results of the calls `Write` makes: the `k`-th call of `poll` returns
`(poll k).1` and leaves `(poll k).2` in errno; `write` returns `write` and, when
that is `-1`, leaves `errno` in errno. -/
structure WriteOracle where
  poll : Nat → Int × Int
  write : Int
  errno : Int

/-- The controlling expression of `do ... while(0)`. -/
def Write.loopCondition : Bool := false

/-- The `do { pollres = poll(&p, 1, -1); if (pollres == -1 && errno == EINTR) continue; }
while(0);` statement.  `k` counts the calls of `poll` made so far; `fuel` bounds the
iterations.  In a `do`-`while` statement `continue` transfers control to the evaluation
of the controlling expression, which is also where the end of the body leads. -/
def Write.pollLoop (o : WriteOracle) (fd : Int) : Nat → Nat → List Effect → List Effect
  | 0, _, tr => tr
  | fuel + 1, k, tr =>
    let pollres := (o.poll k).1
    let errno := (o.poll k).2
    let tr1 := tr ++ [Effect.sys_poll fd pollres]
    let atCondition := if Write.loopCondition then Write.pollLoop o fd fuel (k + 1) tr1 else tr1
    if pollres = -1 ∧ errno = EINTR then
      atCondition
    else
      atCondition

def HciSocket.Write (me : HciSocket) (info : List JsValue) (o : WriteOracle) (fuel : Nat) :
    HciSocket × Completion × List Effect :=
  if me.sk = -1 then
    (me, .throwError "Socket is not open", [])
  else
    match info.head? with
    | some (.buffer buffer) =>
      if buffer.length < 4 ∨ buffer.length > HCI_MAX_FRAME_SIZE then
        (me, .throwError "Buffer length must be between 4 and 1028 bytes", [])
      else
        let tr := Write.pollLoop o me.sk fuel 0 []
        let ret := o.write
        let ret := if ret = -1 then -o.errno else ret
        (me, .number ret, tr ++ [.sys_write me.sk buffer o.write])
    | _ => (me, .throwTypeError "Argument must be a Buffer", [])

/-! ## `HciSocket::Destroy`, `HciSocket::Close`, `HciSocket::UvPollCb` -/

def HciSocket.Destroy (me : HciSocket) : HciSocket × List Effect :=
  if me.sk ≠ -1 then
    ({ me with sk := -1, callback := none, refs := me.refs - 1 },
      [.uv_poll_stop me.poll_handle, .uv_close_free me.poll_handle, .sys_close me.sk,
       .callback_call me.callback none, .callback_reset, .unref])
  else
    (me, [])

def HciSocket.Close (me : HciSocket) (_info : List JsValue) : HciSocket × List Effect :=
  me.Destroy

/-- Results of the calls `UvPollCb` makes: `read` returns `nbytes` and leaves `packet`
in the 1028-byte array; `exceptionPending` is `env.IsExceptionPending()` at the end. -/
structure ReadOracle where
  nbytes : Int
  packet : List Byte
  exceptionPending : Bool
deriving DecidableEq

def HciSocket.UvPollCb (me : HciSocket) (_status _events : Int) (o : ReadOracle) :
    HciSocket × List Effect :=
  let rd := Effect.sys_read me.sk HCI_MAX_FRAME_SIZE o.nbytes
  let r : HciSocket × List Effect :=
    if o.nbytes ≤ 0 then
      let d := me.Destroy
      (d.1, rd :: d.2)
    else
      let buf := o.packet.take o.nbytes.toNat
      (me, [rd, .callback_call me.callback (some buf)])
  if o.exceptionPending then (r.1, r.2 ++ [.fatal_exception]) else r

/-! ## `StoreDevInfo` and `HciSocket::GetDevList` -/

/-- The members of `struct hci_dev_info` that the source reads. -/
structure hci_dev_info where
  dev_id : Nat
  name : List Byte
  bdaddr : Fin 6 → Byte
  flags : Nat
  type : Byte

def hexDigitUpper (d : Nat) : Char :=
  if d < 10 then Char.ofNat (48 + d) else Char.ofNat (55 + d)

def hexUpperAux : Nat → Nat → List Char → List Char
  | 0, _, acc => acc
  | fuel + 1, v, acc =>
    let acc1 := hexDigitUpper (v % 16) :: acc
    if v / 16 = 0 then acc1 else hexUpperAux fuel (v / 16) acc1

/-- Upper-case hexadecimal digits of `v`, most significant first (conversion `X`). -/
def hexUpper (v : Nat) : List Char := hexUpperAux (v + 1) v []

/-- The conversion specification `%02X`: at least two digits, padded with zeros. -/
def fmt02X (v : Nat) : List Char :=
  let ds := hexUpper v
  List.replicate (2 - ds.length) '0' ++ ds

/-- The `sprintf(bdaddr, "%02X:%02X:%02X:%02X:%02X:%02X", b[5], ..., b[0])` call. -/
def sprintfBdaddr (b : Fin 6 → Byte) : List Char :=
  fmt02X (b 5) ++ ':' :: fmt02X (b 4) ++ ':' :: fmt02X (b 3) ++ ':' :: fmt02X (b 2)
    ++ ':' :: fmt02X (b 1) ++ ':' :: fmt02X (b 0)

def dev_types : List String := ["PRIMARY", "AMP"]

def bus_types : List String :=
  ["VIRTUAL", "USB", "PCCARD", "UART", "RS232", "PCI", "SDIO", "SPI", "I2C", "SMD", "VIRTIO"]

/-- The JavaScript object filled by `StoreDevInfo`; `type` and `bus` are a name or,
for a code past the table, the code itself. -/
structure DevInfoObject where
  devId : Nat
  name : List Byte
  bdaddr : String
  flags : Nat
  type : String ⊕ Nat
  bus : String ⊕ Nat
deriving DecidableEq

def StoreDevInfo (di : hci_dev_info) : DevInfoObject :=
  let bdaddr := String.mk (sprintfBdaddr di.bdaddr)
  let dev_type := (di.type.val >>> 4) &&& 0x03
  let bus_type := di.type.val &&& 0x0f
  { devId := di.dev_id
    name := di.name.takeWhile (fun c => c ≠ 0)
    bdaddr := bdaddr
    flags := di.flags
    type := match dev_types.get? dev_type with
      | some s => .inl s
      | none => .inr dev_type
    bus := match bus_types.get? bus_type with
      | some s => .inl s
      | none => .inr bus_type }

/-- A JavaScript array: a position never assigned is a hole. -/
abbrev JsArray := List (Option DevInfoObject)

/-- The call `a.Set(index, obj)`. -/
def JsArray.Set (a : JsArray) (index : Nat) (obj : DevInfoObject) : JsArray :=
  if index < a.length then a.set index (some obj)
  else a ++ List.replicate (index - a.length) none ++ [some obj]

/-- Results of the calls `GetDevList` makes: `devlist` is `none` when the
`HCIGETDEVLIST` request returns `-1`, else the `dev_id` members of the entries the kernel
wrote (`dev_num` is their number); `devinfo i id` is the outcome of the `i`-th
`HCIGETDEVINFO` request, made for device `id` (`none` when it returns `-1`). -/
structure DevListOracle where
  socket : Int
  errno : Int
  malloc : Nat
  devlist : Option (List Nat)
  devinfo : Nat → Nat → Option hci_dev_info

/-- What `GetDevList` returns: a number or the array. -/
inductive DevListResult where
  | number (n : Int)
  | array (a : JsArray)
deriving DecidableEq

/-- The `for (int i = 0; i < dl->dev_num; i++)` statement, over the entries from
position `i` on. -/
def GetDevList.loop (o : DevListOracle) (sk : Int) :
    List Nat → Nat → Nat → JsArray → List Effect → JsArray × List Effect
  | [], _, _, a, tr => (a, tr)
  | dev_id :: rest, i, nfound, a, tr =>
    match o.devinfo i dev_id with
    | some di =>
      GetDevList.loop o sk rest (i + 1) (nfound + 1) (a.Set nfound (StoreDevInfo di))
        (tr ++ [.ioctl_devinfo sk dev_id])
    | none =>
      GetDevList.loop o sk rest (i + 1) nfound a (tr ++ [.ioctl_devinfo sk dev_id])

def HciSocket.GetDevList (o : DevListOracle) : DevListResult × List Effect :=
  let sk := o.socket
  if sk < 0 then
    (.number (-o.errno), [.sys_socket sk])
  else
    match o.devlist with
    | none =>
      (.number (-o.errno),
        [.sys_socket sk, .malloc o.malloc, .ioctl_devlist sk HCI_MAX_DEV, .free o.malloc,
         .sys_close sk])
    | some dev_req =>
      let r := GetDevList.loop o sk dev_req 0 0 []
        [.sys_socket sk, .malloc o.malloc, .ioctl_devlist sk HCI_MAX_DEV]
      (.array r.1, r.2 ++ [.free o.malloc, .sys_close sk])

/-! ## Reading an address back (used to state that the rendering loses nothing) -/

/-- Value of an upper-case hexadecimal digit. -/
def hexValue (c : Char) : Option Nat :=
  if '0' ≤ c ∧ c ≤ '9' then some (c.toNat - 48)
  else if 'A' ≤ c ∧ c ≤ 'F' then some (c.toNat - 55)
  else none

/-- Value of a group of two upper-case hexadecimal digits. -/
def parseGroup (hi lo : Char) : Option Byte :=
  match hexValue hi, hexValue lo with
  | some a, some b => some (Fin.ofNat (16 * a + b))
  | _, _ => none

/-- Parse six groups separated by colons and reverse them: the bytes `b[0], ..., b[5]`. -/
def parseBdaddr : List Char → Option (List Byte)
  | [a1, a0, s1, b1, b0, s2, c1, c0, s3, d1, d0, s4, e1, e0, s5, f1, f0] =>
    if s1 = ':' ∧ s2 = ':' ∧ s3 = ':' ∧ s4 = ':' ∧ s5 = ':' then
      match parseGroup a1 a0, parseGroup b1 b0, parseGroup c1 c0, parseGroup d1 d0,
        parseGroup e1 e0, parseGroup f1 f0 with
      | some a, some b, some c, some d, some e, some f => some (List.reverse [a, b, c, d, e, f])
      | _, _, _, _, _, _ => none
    else none
  | _ => none

/-- The upper-case hexadecimal digit of value `d`. -/
def hexChar (d : Nat) : Char := "0123456789ABCDEF".toList.getD d '?'

/-- The two characters of a byte written in upper-case hexadecimal. -/
def hexGroup (v : Byte) : List Char := [hexChar (v.val / 16), hexChar (v.val % 16)]

/-! ## Sequences of operations on one channel -/

/-- What can happen to a channel: the caller calls `close()`, or the event loop calls
`UvPollCb` (with the outcome of the `read` it makes). -/
inductive Op where
  | close (info : List JsValue)
  | poll (status events : Int) (o : ReadOracle)

def HciSocket.step (me : HciSocket) : Op → HciSocket × List Effect
  | .close info => me.Close info
  | .poll status events o => me.UvPollCb status events o

/-- Apply the operations in order, collecting the effects. -/
def HciSocket.run (me : HciSocket) : List Op → HciSocket × List Effect
  | [] => (me, [])
  | op :: ops =>
    let r := me.step op
    let r2 := r.1.run ops
    (r2.1, r.2 ++ r2.2)

/-- A `close()` call, or a read event whose `read` returned zero or a negative value. -/
def Op.tearsDown : Op → Bool
  | .close _ => true
  | .poll _ _ o => decide (o.nbytes ≤ 0)

def Effect.isClose : Effect → Bool
  | .sys_close _ => true
  | _ => false

/-- A call of a stored callback without arguments: the closed-notification. -/
def Effect.isClosedNotification : Effect → Bool
  | .callback_call (some _) none => true
  | _ => false

/-- A call of a stored callback, with or without arguments. -/
def Effect.isSinkCall : Effect → Bool
  | .callback_call (some _) _ => true
  | _ => false

def Effect.isUnref : Effect → Bool
  | .unref => true
  | _ => false

def Effect.isPoll : Effect → Bool
  | .sys_poll _ _ => true
  | _ => false

/-- An integer in `[0, 0xFFFE]`. -/
def IndexInRange : JsNumber → Bool
  | .fin q => q.isInt && decide (0 ≤ q) && decide (q ≤ 0xFFFE)
  | _ => false

/-- Not part of a teardown: no descriptor closed, no closed-notification, no `Unref`. -/
def Effect.quiet (e : Effect) : Prop :=
  e.isClose = false ∧ e.isClosedNotification = false ∧ e.isUnref = false

/-- The effects of the one teardown of a channel bound on `fd` with handle `h` and
callback `f`, in program order. -/
def teardownEffects (h : Option Nat) (fd : Int) (f : JsFunction) : List Effect :=
  [.uv_poll_stop h, .uv_close_free h, .sys_close fd, .callback_call (some f) none,
   .callback_reset, .unref]

/-- The controllers whose info request succeeds, in order of enumeration; the first
entry of `dev_req` is request number `i`. -/
def successfulFrom (o : DevListOracle) (i : Nat) (dev_req : List Nat) : List hci_dev_info :=
  (dev_req.enumFrom i).filterMap (fun p => o.devinfo p.1 p.2)

/-- Three controllers `hci0`, `hci1`, `hci2`; the info request of the second fails. -/
def threeControllers : DevListOracle :=
  { socket := 5
    errno := 19
    malloc := 4096
    devlist := some [0, 1, 2]
    devinfo := fun _ id =>
      if id = 1 then none
      else some { dev_id := id, name := [104, 99, 105, 0, 0, 0, 0, 0],
                  bdaddr := ![1, 2, 3, 4, 5, 6], flags := 5, type := 1 } }

/-! ## Lemmas: address rendering -/

set_option maxRecDepth 1000000 in
theorem fmt02X_byte : ∀ v : Byte, fmt02X v.val = hexGroup v := by
  decide

set_option maxRecDepth 1000000 in
theorem parseGroup_hexGroup : ∀ v : Byte,
    parseGroup (hexChar (v.val / 16)) (hexChar (v.val % 16)) = some v := by
  decide

set_option maxRecDepth 1000000 in
theorem hexGroup_upper : ∀ v : Byte, ∀ c ∈ hexGroup v, c ∈ "0123456789ABCDEF".toList := by
  decide

theorem sprintfBdaddr_example :
    String.mk (sprintfBdaddr ![1, 2, 3, 4, 5, 6]) = "06:05:04:03:02:01" := by
  decide

theorem sprintfBdaddr_eq (b : Fin 6 → Byte) :
    sprintfBdaddr b =
      hexGroup (b 5) ++ ':' :: hexGroup (b 4) ++ ':' :: hexGroup (b 3) ++ ':' :: hexGroup (b 2)
        ++ ':' :: hexGroup (b 1) ++ ':' :: hexGroup (b 0) := by
  simp only [sprintfBdaddr, fmt02X_byte]

theorem parseBdaddr_sprintfBdaddr (b : Fin 6 → Byte) :
    parseBdaddr (sprintfBdaddr b) = some (List.ofFn b) := by
  rw [sprintfBdaddr_eq]
  simp [hexGroup, parseBdaddr, parseGroup_hexGroup, List.ofFn_succ]
  exact ⟨rfl, rfl, rfl⟩

/-- C10: the `bdaddr` member stored by `StoreDevInfo` has exactly 17 characters, namely the
six bytes of the address written as two upper-case hexadecimal digits each, in the order
`b[5], b[4], b[3], b[2], b[1], b[0]` and separated by colons; the address
`01 02 03 04 05 06` gives `06:05:04:03:02:01`; parsing the six groups and reversing them
gives back the six bytes, so two addresses with the same rendering are equal. -/
theorem C10_bdaddr_rendering (di : hci_dev_info) :
    (StoreDevInfo di).bdaddr.length = 17 ∧
    (StoreDevInfo di).bdaddr.data =
      hexGroup (di.bdaddr 5) ++ ':' :: hexGroup (di.bdaddr 4) ++ ':' :: hexGroup (di.bdaddr 3)
        ++ ':' :: hexGroup (di.bdaddr 2) ++ ':' :: hexGroup (di.bdaddr 1)
        ++ ':' :: hexGroup (di.bdaddr 0) ∧
    (∀ i : Fin 6, ∀ c ∈ hexGroup (di.bdaddr i), c ∈ "0123456789ABCDEF".toList) ∧
    (StoreDevInfo { di with bdaddr := ![1, 2, 3, 4, 5, 6] }).bdaddr = "06:05:04:03:02:01" ∧
    parseBdaddr (StoreDevInfo di).bdaddr.data = some (List.ofFn di.bdaddr) ∧
    (∀ dj : hci_dev_info,
      (StoreDevInfo dj).bdaddr = (StoreDevInfo di).bdaddr → dj.bdaddr = di.bdaddr) := by
  have hdata : ∀ d : hci_dev_info, (StoreDevInfo d).bdaddr.data = sprintfBdaddr d.bdaddr :=
    fun _ => rfl
  refine ⟨?_, ?_, ?_, ?_, ?_, ?_⟩
  · show (sprintfBdaddr di.bdaddr).length = 17
    rw [sprintfBdaddr_eq]
    simp [hexGroup]
  · rw [hdata, sprintfBdaddr_eq]
  · exact fun i => hexGroup_upper (di.bdaddr i)
  · exact sprintfBdaddr_example
  · rw [hdata, parseBdaddr_sprintfBdaddr]
  · intro dj h
    have h1 : parseBdaddr (StoreDevInfo dj).bdaddr.data
        = parseBdaddr (StoreDevInfo di).bdaddr.data := by rw [h]
    rw [hdata, hdata, parseBdaddr_sprintfBdaddr, parseBdaddr_sprintfBdaddr] at h1
    exact List.ofFn_injective (Option.some.inj h1)

/-! ## Lemmas: validation of the device index -/

theorem roundHalfEven_intCast (z : ℤ) : roundHalfEven (z : ℚ) = z := by
  simp [roundHalfEven]

theorem toFloat32_natCast (n : ℕ) (h : n < 2 ^ 24) : toFloat32 (.fin n) = .fin n := by
  rcases Nat.eq_zero_or_pos n with rfl | hpos
  · simp [toFloat32]
  · have hlog : Nat.log 2 n < 24 := Nat.log_lt_of_lt_pow (by omega) h
    obtain ⟨k, hk⟩ : ∃ k : ℕ, (k : ℤ) = 23 - (Nat.log 2 n : ℤ) := ⟨23 - Nat.log 2 n, by omega⟩
    have hn0 : (n : ℚ) ≠ 0 := by exact_mod_cast hpos.ne'
    have habs : |(n : ℚ)| = n := abs_of_nonneg (by positivity)
    have hp : max ((Nat.log 2 n : ℤ) - 23) (-149) = -(k : ℤ) := by omega
    have hdiv : (n : ℚ) / (2 : ℚ) ^ (-(k : ℤ)) = (((n * 2 ^ k : ℕ) : ℤ) : ℚ) := by
      rw [zpow_neg, zpow_natCast, div_inv_eq_mul]
      push_cast
      ring
    have hmul : ((((n * 2 ^ k : ℕ) : ℤ) : ℚ)) * (2 : ℚ) ^ (-(k : ℤ)) = n := by
      rw [zpow_neg, zpow_natCast]
      push_cast
      field_simp
    have hlt : ¬ ((2 : ℚ) ^ (128 : ℕ) ≤ (n : ℚ)) := by
      have h1 : (n : ℚ) < 2 ^ 24 := by exact_mod_cast h
      have h2 : (2 : ℚ) ^ 24 ≤ 2 ^ 128 := by norm_num
      linarith
    have hneg : ¬ ((n : ℚ) < 0) := by
      have : (0 : ℚ) ≤ n := by positivity
      linarith
    simp only [toFloat32, if_neg hn0, habs, Int.log_natCast, hp, hdiv, roundHalfEven_intCast,
      hmul, if_neg hlt, if_neg hneg]

theorem floorf_natCast (n : ℕ) (h : n < 2 ^ 24) : floorf (.fin n) = .fin n := by
  simp [floorf, toFloat32_natCast n h]

theorem valid_index_checks (n : ℕ) (h : n ≤ 0xFFFE) :
    (floorf (.fin n)).ne (.fin n) = false ∧ (JsNumber.fin n).lt (.fin 0) = false ∧
      (JsNumber.fin n).ge (.fin 0xffff) = false ∧ toUint16 (.fin n) = n := by
  have h24 : n < 2 ^ 24 := by omega
  refine ⟨?_, ?_, ?_, ?_⟩
  · simp [floorf_natCast n h24, JsNumber.ne]
  · simp [JsNumber.lt]
  · have : (n : ℚ) < 65535 := by exact_mod_cast (by omega : n < 65535)
    simpa [JsNumber.ge] using this
  · simp only [toUint16, Int.floor_natCast, Int.toNat_ofNat]
    omega

theorem indexInRange_iff (x : JsNumber) :
    IndexInRange x = true ↔ ∃ n : ℕ, n ≤ 0xFFFE ∧ x = .fin (n : ℚ) := by
  constructor
  · intro h
    cases x with
    | nan => simp [IndexInRange] at h
    | inf s => simp [IndexInRange] at h
    | fin q =>
      simp only [IndexInRange, Bool.and_eq_true, decide_eq_true_eq] at h
      obtain ⟨⟨hint, h0⟩, h1⟩ := h
      have hq : q = (q.num : ℚ) := Rat.eq_num_of_isInt hint
      have h0z : 0 ≤ q.num := Rat.num_nonneg.mpr h0
      have h1z : q.num ≤ 65534 := by
        rw [hq] at h1
        exact_mod_cast h1
      refine ⟨q.num.toNat, by omega, ?_⟩
      congr 1
      have : ((q.num.toNat : ℤ) : ℚ) = (q.num : ℚ) := by rw [Int.toNat_of_nonneg h0z]
      rw [hq]
      exact_mod_cast this.symm
  · rintro ⟨n, hn, rfl⟩
    have h1 : (n : ℚ) ≤ 65534 := by exact_mod_cast hn
    have hint : ((n : ℚ)).isInt = true := by simp [Rat.isInt]
    simp [IndexInRange, hint, h1]

theorem floorf_fin_cases (q : ℚ) :
    (∃ s, floorf (.fin q) = .inf s) ∨ ∃ z : ℤ, floorf (.fin q) = .fin (z : ℚ) := by
  unfold floorf
  cases h : toFloat32 (.fin q) with
  | nan =>
    simp only [toFloat32] at h
    split_ifs at h
  | inf s => exact Or.inl ⟨s, rfl⟩
  | fin r => exact Or.inr ⟨⌊r⌋, rfl⟩

theorem invalid_index_rejected (x : JsNumber) (h : IndexInRange x = false) :
    (floorf x).ne x = true ∨ (x.lt (.fin 0) || x.ge (.fin 0xffff)) = true := by
  cases x with
  | nan => left; rfl
  | inf s => right; cases s <;> rfl
  | fin q =>
    by_cases hne : (floorf (.fin q)).ne (.fin q) = true
    · exact Or.inl hne
    · right
      rcases floorf_fin_cases q with ⟨s, hs⟩ | ⟨z, hz⟩
      · rw [hs] at hne
        exact absurd rfl hne
      · rw [hz] at hne
        have hq : q = (z : ℚ) := by
          simp only [JsNumber.ne, ne_eq, decide_not, Bool.not_eq_true', decide_eq_false_iff_not,
            not_not, Bool.not_eq_true] at hne
          exact hne.symm
        subst hq
        by_contra hc
        simp only [JsNumber.lt, JsNumber.ge, Bool.or_eq_true, decide_eq_true_eq, not_or, not_lt,
          not_le] at hc
        obtain ⟨h0, h1⟩ := hc
        have h0z : 0 ≤ z := by exact_mod_cast h0
        have h1z : z < 65535 := by exact_mod_cast h1
        have hin : IndexInRange (.fin (z : ℚ)) = true := by
          rw [indexInRange_iff]
          refine ⟨z.toNat, by omega, ?_⟩
          congr 1
          have : ((z.toNat : ℤ) : ℚ) = (z : ℚ) := by rw [Int.toNat_of_nonneg h0z]
          exact_mod_cast this.symm
        rw [hin] at h
        exact Bool.noConfusion h

/-! ## Lemmas: the paths of `Bind` after a valid index and a function -/

theorem Bind_valid_bound (me : HciSocket) (n : ℕ) (h : n ≤ 0xFFFE) (f : JsFunction)
    (rest : List JsValue) (o : BindOracle) (hb : me.sk ≠ -1) :
    me.Bind (.number (.fin n) :: .function f :: rest) o
      = (me, .throwError "Socket already bound", []) := by
  obtain ⟨h1, h2, h3, _⟩ := valid_index_checks n h
  simp [HciSocket.Bind, h1, h2, h3, hb]

theorem Bind_valid_unbound_head (me : HciSocket) (n : ℕ) (h : n ≤ 0xFFFE) (f : JsFunction)
    (rest : List JsValue) (o : BindOracle) (hb : me.sk = -1) :
    (me.Bind (.number (.fin n) :: .function f :: rest) o).2.2.head?
      = some (.sys_socket o.socket) := by
  obtain ⟨h1, h2, h3, _⟩ := valid_index_checks n h
  simp only [HciSocket.Bind, List.head?_cons, h1, h2, h3, List.tail_cons, hb]
  simp only [Bool.false_eq_true, ↓reduceIte, Bool.or_self, ne_eq, not_true_eq_false]
  split_ifs <;> rfl

theorem Bind_valid_unbound_success (me : HciSocket) (n : ℕ) (h : n ≤ 0xFFFE) (f : JsFunction)
    (rest : List JsValue) (o : BindOracle) (hb : me.sk = -1) (hs : 0 ≤ o.socket)
    (hbind : o.bind ≠ -1) (hinit : o.uv_poll_init = 0) :
    me.Bind (.number (.fin n) :: .function f :: rest) o
      = ({ sk := o.socket, poll_handle := some o.malloc, callback := some f,
           refs := me.refs + 1 },
         .number 0,
         [.sys_socket o.socket, .sys_bind o.socket n HCI_CHANNEL_USER o.bind,
          .malloc o.malloc, .uv_poll_init (some o.malloc) o.socket 0,
          .uv_poll_start (some o.malloc) (UV_READABLE ||| UV_DISCONNECT),
          .callback_persist f, .ref]) := by
  obtain ⟨h1, h2, h3, h4⟩ := valid_index_checks n h
  simp [HciSocket.Bind, h1, h2, h3, h4, hb, not_lt.mpr hs, hbind, hinit]

/-! ## Claims about `Bind` and `Write` -/

/-- C3: for every number that is not an integer in `[0, 0xFFFE]` (negative, at least
`0xFFFF`, not an integer, NaN, infinite), in every state of the channel and whatever
the other arguments, `bind` throws a `TypeError`, makes no system or library call and
leaves the channel as it was; every integer in `[0, 0xFFFE]` given with a function is not
rejected as an argument: on a bound channel the call gets as far as the
"Socket already bound" error, on an unbound one as far as creating the socket. -/
theorem C3_bind_index_validation (me : HciSocket) (rest : List JsValue) (o : BindOracle) :
    (∀ x : JsNumber, IndexInRange x = false →
      me.Bind (.number x :: rest) o
        = (me, .throwTypeError "Wrong first arg type, must be integer", []) ∨
      me.Bind (.number x :: rest) o
        = (me, .throwTypeError "Wrong first arg type, must be integer between 0 and 0xfffe",
            [])) ∧
    (∀ x : JsNumber, IndexInRange x = true → ∀ f : JsFunction,
      (∀ msg, (me.Bind (.number x :: .function f :: rest) o).2.1 ≠ .throwTypeError msg) ∧
      (me.sk ≠ -1 → me.Bind (.number x :: .function f :: rest) o
        = (me, .throwError "Socket already bound", [])) ∧
      (me.sk = -1 → (me.Bind (.number x :: .function f :: rest) o).2.2.head?
        = some (.sys_socket o.socket))) := by
  refine ⟨?_, ?_⟩
  · intro x hx
    rcases invalid_index_rejected x hx with h1 | h2
    · exact Or.inl (by simp [HciSocket.Bind, h1])
    · by_cases h1 : (floorf x).ne x = true
      · exact Or.inl (by simp [HciSocket.Bind, h1])
      · right
        simp only [HciSocket.Bind, List.head?_cons, h1, h2]
        rfl
  · intro x hx f
    obtain ⟨n, hn, rfl⟩ := (indexInRange_iff x).mp hx
    obtain ⟨h1, h2, h3, _⟩ := valid_index_checks n hn
    refine ⟨?_, Bind_valid_bound me n hn f rest o, Bind_valid_unbound_head me n hn f rest o⟩
    intro msg
    simp only [HciSocket.Bind, List.head?_cons, h1, h2, h3, List.tail_cons]
    simp only [Bool.false_eq_true, ↓reduceIte, Bool.or_self, ne_eq]
    split_ifs <;> simp

theorem C3_bind_index_validation_witness :
    (HciSocket.new.Bind [.number (.fin (-1)), .function ⟨7⟩] ⟨3, 0, 0, 1000, 0⟩
        = (HciSocket.new, .throwTypeError "Wrong first arg type, must be integer", []) ∨
      HciSocket.new.Bind [.number (.fin (-1)), .function ⟨7⟩] ⟨3, 0, 0, 1000, 0⟩
        = (HciSocket.new,
            .throwTypeError "Wrong first arg type, must be integer between 0 and 0xfffe",
            [])) ∧
    (HciSocket.new.Bind [.number (.fin 65534), .function ⟨7⟩]
      ⟨3, 0, 0, 1000, 0⟩).2.2.head? = some (.sys_socket 3) :=
  ⟨(C3_bind_index_validation HciSocket.new [.function ⟨7⟩] ⟨3, 0, 0, 1000, 0⟩).1
      (.fin (-1)) (by decide),
   ((C3_bind_index_validation HciSocket.new [] ⟨3, 0, 0, 1000, 0⟩).2
      (.fin 65534) (by decide) ⟨7⟩).2.2 rfl⟩

/-- C5: on a bound channel (`sk` is not `-1`) a `bind` call with a valid index and a
function throws the "Socket already bound" error, makes no system or library call (no
socket is created) and leaves every field of the channel as it was: same descriptor, same
poll handle, same callback, same reference count. -/
theorem C5_second_bind_rejected (me : HciSocket) (hb : me.sk ≠ -1) (n : ℕ) (hn : n ≤ 0xFFFE)
    (f : JsFunction) (rest : List JsValue) (o : BindOracle) :
    me.Bind (.number (.fin n) :: .function f :: rest) o
      = (me, .throwError "Socket already bound", []) :=
  Bind_valid_bound me n hn f rest o hb

theorem C5_second_bind_rejected_witness :
    (⟨3, some 1000, some ⟨1⟩, 1⟩ : HciSocket).Bind
        [.number (.fin ((2 : ℕ) : ℚ)), .function ⟨9⟩] ⟨4, 0, 0, 2000, 0⟩
      = (⟨3, some 1000, some ⟨1⟩, 1⟩, .throwError "Socket already bound", []) :=
  C5_second_bind_rejected ⟨3, some 1000, some ⟨1⟩, 1⟩ (by decide) 2 (by norm_num) ⟨9⟩ []
    ⟨4, 0, 0, 2000, 0⟩

theorem pollLoop_succ (o : WriteOracle) (fd : Int) (fuel k : Nat) (tr : List Effect) :
    Write.pollLoop o fd (fuel + 1) k tr = tr ++ [Effect.sys_poll fd (o.poll k).1] := by
  simp [Write.pollLoop, Write.loopCondition]

theorem pollLoop_all_polls (o : WriteOracle) (fd : Int) (fuel : Nat) :
    ∀ e ∈ Write.pollLoop o fd fuel 0 [], e.isPoll = true := by
  cases fuel with
  | zero => simp [Write.pollLoop]
  | succ m => simp [pollLoop_succ, Effect.isPoll]

/-- C4: on a bound channel `write` of a buffer makes no system call at all exactly when
the length of the buffer is below 4 or above 1028, and then throws the length error;
for every length from 4 to 1028 (so for 4 and 1028, and not for 3 and 1029) the effects
are calls of `poll` followed by one `write` of the whole buffer on the descriptor; in both
cases every field of the channel is as before. -/
theorem C4_write_length_bounds (me : HciSocket) (hb : me.sk ≠ -1) (buffer : List Byte)
    (rest : List JsValue) (o : WriteOracle) (fuel : Nat) :
    ((me.Write (.buffer buffer :: rest) o fuel).2.2 = [] ↔
      (buffer.length < 4 ∨ 1028 < buffer.length)) ∧
    ((buffer.length < 4 ∨ 1028 < buffer.length) →
      me.Write (.buffer buffer :: rest) o fuel
        = (me, .throwError "Buffer length must be between 4 and 1028 bytes", [])) ∧
    (4 ≤ buffer.length → buffer.length ≤ 1028 →
      ∃ polls ret, (∀ e ∈ polls, e.isPoll = true) ∧
        me.Write (.buffer buffer :: rest) o fuel
          = (me, .number ret, polls ++ [.sys_write me.sk buffer o.write])) ∧
    (me.Write (.buffer buffer :: rest) o fuel).1 = me := by
  by_cases hlen : buffer.length < 4 ∨ 1028 < buffer.length
  · have hw : me.Write (.buffer buffer :: rest) o fuel
        = (me, .throwError "Buffer length must be between 4 and 1028 bytes", []) := by
      simp [HciSocket.Write, hb, HCI_MAX_FRAME_SIZE, hlen]
    refine ⟨by simp [hw, hlen], fun _ => hw, ?_, by rw [hw]⟩
    intro h4 h1028
    omega
  · have hw : me.Write (.buffer buffer :: rest) o fuel
        = (me, .number (if o.write = -1 then -o.errno else o.write),
            Write.pollLoop o me.sk fuel 0 [] ++ [.sys_write me.sk buffer o.write]) := by
      simp [HciSocket.Write, hb, HCI_MAX_FRAME_SIZE, hlen]
    refine ⟨by simp [hw, hlen], fun h => absurd h hlen, ?_, by rw [hw]⟩
    intro _ _
    exact ⟨_, _, pollLoop_all_polls o me.sk fuel, hw⟩

theorem C4_write_length_bounds_witness :
    ((⟨3, some 1000, some ⟨1⟩, 1⟩ : HciSocket).Write
        [.buffer [1, 2, 3]] ⟨fun _ => (1, 0), 3, 0⟩ 1).2.2 = [] ∧
    ∃ polls ret, (∀ e ∈ polls, e.isPoll = true) ∧
      (⟨3, some 1000, some ⟨1⟩, 1⟩ : HciSocket).Write
          [.buffer [1, 3, 12, 0]] ⟨fun _ => (1, 0), 4, 0⟩ 1
        = (⟨3, some 1000, some ⟨1⟩, 1⟩, .number ret,
            polls ++ [.sys_write 3 [1, 3, 12, 0] 4]) :=
  ⟨(C4_write_length_bounds ⟨3, some 1000, some ⟨1⟩, 1⟩ (by decide) [1, 2, 3] []
      ⟨fun _ => (1, 0), 3, 0⟩ 1).1.mpr (by decide),
   (C4_write_length_bounds ⟨3, some 1000, some ⟨1⟩, 1⟩ (by decide) [1, 3, 12, 0] []
      ⟨fun _ => (1, 0), 4, 0⟩ 1).2.2.1 (by decide) (by decide)⟩

/-- C7 (the code at the failing input): with a first `poll` that fails with `EINTR` and a
second one that would succeed, `write` calls `poll` once, not twice, and goes on to the
`write` call: `continue` inside `do ... while(0)` leaves the loop. -/
theorem C7_write_does_not_retry_poll :
    ∀ fuel : Nat,
      (⟨3, some 1000, some ⟨1⟩, 1⟩ : HciSocket).Write [.buffer [1, 3, 12, 0]]
          ⟨fun k => if k = 0 then (-1, EINTR) else (1, 0), 4, 0⟩ (fuel + 1)
        = (⟨3, some 1000, some ⟨1⟩, 1⟩, .number 4,
            [.sys_poll 3 (-1), .sys_write 3 [1, 3, 12, 0] 4]) := by
  intro fuel
  simp [HciSocket.Write, HCI_MAX_FRAME_SIZE, pollLoop_succ]

/-- C8 (the code at the failing input): when `uv_poll_init` fails in `bind` on a new
channel, the member `poll_handle` has been overwritten with the fresh allocation, and
that allocation is neither freed nor handed to libuv for closing; the socket is
closed and the result of `uv_poll_init` is returned. -/
theorem C8_bind_poll_init_failure_leaks :
    HciSocket.new.Bind [.number (.fin 0), .function ⟨1⟩] ⟨3, 0, 0, 1000, -22⟩
      = (⟨-1, some 1000, none, 0⟩, .number (-22),
          [.sys_socket 3, .sys_bind 3 0 HCI_CHANNEL_USER 0, .malloc 1000,
           .uv_poll_init (some 1000) 3 (-22), .sys_close 3]) ∧
    (⟨-1, some 1000, none, 0⟩ : HciSocket) ≠ HciSocket.new := by
  have hv := valid_index_checks 0 (by norm_num)
  simp only [Nat.cast_zero] at hv
  obtain ⟨h1, h2, h3, h4⟩ := hv
  refine ⟨?_, by decide⟩
  simp [HciSocket.Bind, h1, h2, h3, h4, HciSocket.new]

/-! ## Claims about the read path and teardown -/

/-- C6: on a bound channel, when the `read` of a poll callback returns `N` with
`1 ≤ N ≤ 1028` and has put an `N`-byte packet at the start of the array, the callback asks
`read` for at most 1028 bytes, calls the stored callback once, with exactly those `N`
bytes in order, sends no closed-notification and leaves every field of the channel as it
was (a pending exception of the callback is then reported as fatal); the `status` and
`events` arguments have no influence on the result. -/
theorem C6_read_dispatch (me : HciSocket) (f : JsFunction) (_hb : me.sk ≠ -1)
    (hf : me.callback = some f) (pkt junk : List Byte) (h1 : 1 ≤ pkt.length)
    (_h2 : pkt.length ≤ 1028) (status events : Int) (exc : Bool) :
    me.UvPollCb status events ⟨pkt.length, pkt ++ junk, exc⟩
      = (me, [.sys_read me.sk 1028 pkt.length, .callback_call (some f) (some pkt)]
          ++ if exc then [.fatal_exception] else []) ∧
    ((me.UvPollCb status events ⟨pkt.length, pkt ++ junk, exc⟩).2.filter Effect.isSinkCall
      = [.callback_call (some f) (some pkt)]) ∧
    (∀ (o : ReadOracle) (s e : Int), me.UvPollCb s e o = me.UvPollCb status events o) := by
  have hpos : ¬ ((pkt.length : Int) ≤ 0) := by omega
  have hrun : me.UvPollCb status events ⟨pkt.length, pkt ++ junk, exc⟩
      = (me, [.sys_read me.sk 1028 pkt.length, .callback_call (some f) (some pkt)]
          ++ if exc then [.fatal_exception] else []) := by
    cases exc <;> simp [HciSocket.UvPollCb, hpos, hf, HCI_MAX_FRAME_SIZE]
  refine ⟨hrun, ?_, fun _ _ _ => rfl⟩
  rw [hrun]
  cases exc <;> simp [Effect.isSinkCall]

theorem C6_read_dispatch_witness :
    (⟨3, some 1000, some ⟨1⟩, 1⟩ : HciSocket).UvPollCb 0 1 ⟨2, [4, 14] ++ [0, 0], false⟩
      = (⟨3, some 1000, some ⟨1⟩, 1⟩,
          [.sys_read 3 1028 2, .callback_call (some ⟨1⟩) (some [4, 14])]) :=
  (C6_read_dispatch ⟨3, some 1000, some ⟨1⟩, 1⟩ ⟨1⟩ (by decide) rfl [4, 14] [0, 0]
    (by decide) (by decide) 0 1 false).1

theorem Destroy_closed (me : HciSocket) (h : me.sk = -1) : me.Destroy = (me, []) := by
  simp [HciSocket.Destroy, h]

theorem Destroy_bound (me : HciSocket) (f : JsFunction) (h : me.sk ≠ -1)
    (hf : me.callback = some f) :
    me.Destroy = ({ me with sk := -1, callback := none, refs := me.refs - 1 },
      teardownEffects me.poll_handle me.sk f) := by
  simp [HciSocket.Destroy, h, hf, teardownEffects]

theorem step_closed (me : HciSocket) (h : me.sk = -1) (op : Op) :
    (me.step op).1 = me ∧ ∀ e ∈ (me.step op).2, e.quiet := by
  cases op with
  | close info => simp [HciSocket.step, HciSocket.Close, Destroy_closed me h]
  | poll status events o =>
    by_cases hn : o.nbytes ≤ 0 <;> cases hx : o.exceptionPending <;>
      simp [HciSocket.step, HciSocket.UvPollCb, Destroy_closed me h, hn, hx, Effect.quiet,
        Effect.isClose, Effect.isClosedNotification, Effect.isUnref]

theorem run_closed (me : HciSocket) (h : me.sk = -1) (ops : List Op) :
    (me.run ops).1 = me ∧ ∀ e ∈ (me.run ops).2, e.quiet := by
  induction ops with
  | nil => simp [HciSocket.run]
  | cons op ops ih =>
    obtain ⟨h1, h2⟩ := step_closed me h op
    simp only [HciSocket.run, h1]
    refine ⟨ih.1, ?_⟩
    intro e he
    rcases List.mem_append.mp he with he | he
    · exact h2 e he
    · exact ih.2 e he

theorem step_bound_data (me : HciSocket) (op : Op) (ht : op.tearsDown = false) :
    (me.step op).1 = me ∧ ∀ e ∈ (me.step op).2, e.quiet := by
  cases op with
  | close info => simp [Op.tearsDown] at ht
  | poll status events o =>
    have hn : ¬ (o.nbytes ≤ 0) := by simpa [Op.tearsDown] using ht
    cases hx : o.exceptionPending <;>
      simp [HciSocket.step, HciSocket.UvPollCb, hn, hx, Effect.quiet,
        Effect.isClose, Effect.isClosedNotification, Effect.isUnref]

theorem step_bound_teardown (me : HciSocket) (f : JsFunction) (h : me.sk ≠ -1)
    (hf : me.callback = some f) (op : Op) (ht : op.tearsDown = true) :
    (me.step op).1 = { me with sk := -1, callback := none, refs := me.refs - 1 } ∧
    ∃ pre post, (me.step op).2 = pre ++ teardownEffects me.poll_handle me.sk f ++ post ∧
      (∀ e ∈ pre, e.quiet) ∧ ∀ e ∈ post, e.quiet := by
  cases op with
  | close info =>
    refine ⟨by simp [HciSocket.step, HciSocket.Close, Destroy_bound me f h hf], [], [], ?_⟩
    simp [HciSocket.step, HciSocket.Close, Destroy_bound me f h hf]
  | poll status events o =>
    have hn : o.nbytes ≤ 0 := by simpa [Op.tearsDown] using ht
    cases hx : o.exceptionPending
    · refine ⟨by simp [HciSocket.step, HciSocket.UvPollCb, Destroy_bound me f h hf, hn, hx],
        [.sys_read me.sk HCI_MAX_FRAME_SIZE o.nbytes], [], ?_⟩
      simp [HciSocket.step, HciSocket.UvPollCb, Destroy_bound me f h hf, hn, hx, Effect.quiet,
        Effect.isClose, Effect.isClosedNotification, Effect.isUnref]
    · refine ⟨by simp [HciSocket.step, HciSocket.UvPollCb, Destroy_bound me f h hf, hn, hx],
        [.sys_read me.sk HCI_MAX_FRAME_SIZE o.nbytes], [.fatal_exception], ?_⟩
      simp [HciSocket.step, HciSocket.UvPollCb, Destroy_bound me f h hf, hn, hx, Effect.quiet,
        Effect.isClose, Effect.isClosedNotification, Effect.isUnref]

theorem run_bound_quiet (me : HciSocket) (ops : List Op) (ht : ops.any Op.tearsDown = false) :
    (me.run ops).1 = me ∧ ∀ e ∈ (me.run ops).2, e.quiet := by
  induction ops with
  | nil => simp [HciSocket.run]
  | cons op ops ih =>
    simp only [List.any_cons, Bool.or_eq_false_iff] at ht
    obtain ⟨h1, h2⟩ := step_bound_data me op ht.1
    obtain ⟨h3, h4⟩ := ih ht.2
    simp only [HciSocket.run, h1]
    refine ⟨h3, ?_⟩
    intro e he
    rcases List.mem_append.mp he with he | he
    · exact h2 e he
    · exact h4 e he

theorem run_bound_teardown (me : HciSocket) (f : JsFunction) (h : me.sk ≠ -1)
    (hf : me.callback = some f) (ops : List Op) (ht : ops.any Op.tearsDown = true) :
    (me.run ops).1 = { me with sk := -1, callback := none, refs := me.refs - 1 } ∧
    ∃ pre post, (me.run ops).2 = pre ++ teardownEffects me.poll_handle me.sk f ++ post ∧
      (∀ e ∈ pre, e.quiet) ∧ ∀ e ∈ post, e.quiet := by
  induction ops with
  | nil => simp at ht
  | cons op ops ih =>
    cases hop : op.tearsDown
    · have hrest : ops.any Op.tearsDown = true := by simpa [hop] using ht
      obtain ⟨h1, h2⟩ := step_bound_data me op hop
      obtain ⟨h3, pre, post, h4, h5, h6⟩ := ih hrest
      simp only [HciSocket.run, h1]
      refine ⟨h3, (me.step op).2 ++ pre, post, ?_, ?_, h6⟩
      · rw [h4]
        simp
      · intro e he
        rcases List.mem_append.mp he with he | he
        · exact h2 e he
        · exact h5 e he
    · obtain ⟨h1, pre, post, h2, h3, h4⟩ := step_bound_teardown me f h hf op hop
      obtain ⟨h5, h6⟩ := run_closed (me.step op).1 (by rw [h1]) ops
      simp only [HciSocket.run]
      refine ⟨by rw [h5, h1], pre, post ++ ((me.step op).1.run ops).2, ?_, h3, ?_⟩
      · rw [h2]
        simp
      · intro e he
        rcases List.mem_append.mp he with he | he
        · exact h4 e he
        · exact h6 e he

theorem countP_quiet (tr : List Effect) (h : ∀ e ∈ tr, e.quiet) :
    tr.countP Effect.isClose = 0 ∧ tr.countP Effect.isClosedNotification = 0 ∧
      tr.countP Effect.isUnref = 0 := by
  refine ⟨?_, ?_, ?_⟩ <;> rw [List.countP_eq_zero] <;> intro e he
  · simp [(h e he).1]
  · simp [(h e he).2.1]
  · simp [(h e he).2.2]

theorem countP_teardown (pre post : List Effect) (h : Option Nat) (fd : Int) (f : JsFunction)
    (hpre : ∀ e ∈ pre, e.quiet) (hpost : ∀ e ∈ post, e.quiet) :
    (pre ++ teardownEffects h fd f ++ post).countP Effect.isClose = 1 ∧
    (pre ++ teardownEffects h fd f ++ post).countP Effect.isClosedNotification = 1 ∧
    (pre ++ teardownEffects h fd f ++ post).countP Effect.isUnref = 1 := by
  obtain ⟨a1, a2, a3⟩ := countP_quiet pre hpre
  obtain ⟨b1, b2, b3⟩ := countP_quiet post hpost
  simp only [List.countP_append, a1, a2, a3, b1, b2, b3]
  refine ⟨?_, ?_, ?_⟩ <;> rfl

/-- C1: for a bound channel (`sk` is not `-1`, the callback `f` is stored) and every finite
sequence of `close()` calls and poll callbacks (whatever their `read` returns), the
effects contain at most one `close` of a descriptor, at most one call of a stored
callback without arguments (the closed-notification) and at most one `Unref`.  As soon
as the sequence contains a `close()` or a poll callback whose `read` returned a value
`≤ 0`, each of the three occurs exactly once, the descriptor closed is the bound one, the
notification goes to `f`, the channel ends with `sk = -1` and an empty callback reference,
and a further `close()` changes nothing and has no effect at all.  A sequence without
such an operation leaves the channel as it was and has none of the three effects. -/
theorem C1_teardown_exactly_once (me : HciSocket) (f : JsFunction) (hb : me.sk ≠ -1)
    (hf : me.callback = some f) (ops : List Op) :
    ((me.run ops).2.countP Effect.isClose ≤ 1 ∧
      (me.run ops).2.countP Effect.isClosedNotification ≤ 1 ∧
      (me.run ops).2.countP Effect.isUnref ≤ 1) ∧
    (ops.any Op.tearsDown = true →
      (me.run ops).2.countP Effect.isClose = 1 ∧
      Effect.sys_close me.sk ∈ (me.run ops).2 ∧
      (me.run ops).2.countP Effect.isClosedNotification = 1 ∧
      Effect.callback_call (some f) none ∈ (me.run ops).2 ∧
      (me.run ops).2.countP Effect.isUnref = 1 ∧
      (me.run ops).1.sk = -1 ∧ (me.run ops).1.callback = none ∧
      (me.run ops).1.refs = me.refs - 1 ∧
      ∀ info, (me.run ops).1.Close info = ((me.run ops).1, [])) ∧
    (ops.any Op.tearsDown = false →
      (me.run ops).1 = me ∧
      (me.run ops).2.countP Effect.isClose = 0 ∧
      (me.run ops).2.countP Effect.isClosedNotification = 0 ∧
      (me.run ops).2.countP Effect.isUnref = 0) := by
  cases ht : ops.any Op.tearsDown
  · obtain ⟨h1, h2⟩ := run_bound_quiet me ops ht
    obtain ⟨c1, c2, c3⟩ := countP_quiet _ h2
    refine ⟨⟨by omega, by omega, by omega⟩, fun h => by simp at h, fun _ => ⟨h1, c1, c2, c3⟩⟩
  · obtain ⟨h1, pre, post, h2, h3, h4⟩ := run_bound_teardown me f hb hf ops ht
    obtain ⟨c1, c2, c3⟩ := countP_teardown pre post me.poll_handle me.sk f h3 h4
    rw [← h2] at c1 c2 c3
    refine ⟨⟨by omega, by omega, by omega⟩, fun _ => ?_, fun h => by simp at h⟩
    refine ⟨c1, ?_, c2, ?_, c3, by rw [h1], by rw [h1], by rw [h1], ?_⟩
    · rw [h2]
      simp [teardownEffects]
    · rw [h2]
      simp [teardownEffects]
    · intro info
      exact Destroy_closed _ (by rw [h1])

theorem C1_teardown_exactly_once_witness :
    ((⟨3, some 1000, some ⟨1⟩, 1⟩ : HciSocket).run
        [.poll 0 1 ⟨2, [4, 14], false⟩, .poll 0 1 ⟨0, [], false⟩, .close [],
         .poll (-9) 1 ⟨-1, [], false⟩, .close []]).2.countP Effect.isClosedNotification = 1 :=
  ((C1_teardown_exactly_once ⟨3, some 1000, some ⟨1⟩, 1⟩ ⟨1⟩ (by decide) rfl
      [.poll 0 1 ⟨2, [4, 14], false⟩, .poll 0 1 ⟨0, [], false⟩, .close [],
       .poll (-9) 1 ⟨-1, [], false⟩, .close []]).2.1 (by decide)).2.2.1

/-- C2 (counterexample): a new channel is bound on descriptor 3, closed by `close()`, and
bound again: the second `bind` creates a socket, returns 0 and leaves the channel bound on
descriptor 4 with the second callback. -/
theorem C2_rebind_after_close_succeeds :
    (HciSocket.new.Bind [.number (.fin 0), .function ⟨1⟩] ⟨3, 0, 0, 1000, 0⟩).1
      = ⟨3, some 1000, some ⟨1⟩, 1⟩ ∧
    ((⟨3, some 1000, some ⟨1⟩, 1⟩ : HciSocket).Close []).1 = ⟨-1, some 1000, none, 0⟩ ∧
    (⟨-1, some 1000, none, 0⟩ : HciSocket).Bind [.number (.fin 0), .function ⟨2⟩]
        ⟨4, 0, 0, 2000, 0⟩
      = (⟨4, some 2000, some ⟨2⟩, 1⟩, .number 0,
          [.sys_socket 4, .sys_bind 4 0 HCI_CHANNEL_USER 0, .malloc 2000,
           .uv_poll_init (some 2000) 4 0,
           .uv_poll_start (some 2000) (UV_READABLE ||| UV_DISCONNECT),
           .callback_persist ⟨2⟩, .ref]) := by
  have hv := valid_index_checks 0 (by norm_num)
  simp only [Nat.cast_zero] at hv
  obtain ⟨h1, h2, h3, h4⟩ := hv
  refine ⟨?_, ?_, ?_⟩
  · simp [HciSocket.Bind, h1, h2, h3, h4, HciSocket.new]
  · simp [HciSocket.Close, HciSocket.Destroy]
  · simp [HciSocket.Bind, h1, h2, h3, h4]

/-- C2 (amended): after a teardown (by `close()` or by a poll callback whose `read`
returned a value `≤ 0`) of a bound channel, `sk` is `-1` and the callback reference is
empty; every later `write` throws "Socket is not open", makes no system call and leaves
the channel as it is; a later `bind` with a valid index and a function is treated like
a first one: when creating the socket, binding it and `uv_poll_init` succeed, it returns
0 and the channel is bound on the new descriptor with the new callback. -/
theorem C2_after_teardown (me : HciSocket) (f : JsFunction) (hb : me.sk ≠ -1)
    (hf : me.callback = some f) (op : Op) (ht : op.tearsDown = true) :
    (me.step op).1.sk = -1 ∧ (me.step op).1.callback = none ∧
    (∀ info o fuel, (me.step op).1.Write info o fuel
      = ((me.step op).1, .throwError "Socket is not open", [])) ∧
    (∀ (n : ℕ) (g : JsFunction) (rest : List JsValue) (o : BindOracle), n ≤ 0xFFFE →
      0 ≤ o.socket → o.bind ≠ -1 → o.uv_poll_init = 0 →
      (me.step op).1.Bind (.number (.fin n) :: .function g :: rest) o
        = ({ sk := o.socket, poll_handle := some o.malloc, callback := some g,
             refs := (me.step op).1.refs + 1 },
           .number 0,
           [.sys_socket o.socket, .sys_bind o.socket n HCI_CHANNEL_USER o.bind,
            .malloc o.malloc, .uv_poll_init (some o.malloc) o.socket 0,
            .uv_poll_start (some o.malloc) (UV_READABLE ||| UV_DISCONNECT),
            .callback_persist g, .ref])) := by
  obtain ⟨h1, _⟩ := step_bound_teardown me f hb hf op ht
  have hsk : (me.step op).1.sk = -1 := by rw [h1]
  refine ⟨hsk, by rw [h1], ?_, ?_⟩
  · intro info o fuel
    simp [HciSocket.Write, hsk]
  · intro n g rest o hn hs hbind hinit
    exact Bind_valid_unbound_success _ n hn g rest o hsk hs hbind hinit

theorem C2_after_teardown_witness :
    (((⟨3, some 1000, some ⟨1⟩, 1⟩ : HciSocket).step (.poll 0 1 ⟨0, [], false⟩)).1.Bind
        [.number (.fin ((5 : ℕ) : ℚ)), .function ⟨2⟩] ⟨4, 0, 0, 2000, 0⟩).1.sk = 4 :=
  congrArg (fun r => r.1.sk)
    ((C2_after_teardown ⟨3, some 1000, some ⟨1⟩, 1⟩ ⟨1⟩ (by decide) rfl
      (.poll 0 1 ⟨0, [], false⟩) (by decide)).2.2.2 5 ⟨2⟩ [] ⟨4, 0, 0, 2000, 0⟩
      (by norm_num) (by decide) (by decide) rfl)

/-! ## Device enumeration -/

theorem JsArray_Set_length (a : JsArray) (obj : DevInfoObject) :
    JsArray.Set a a.length obj = a ++ [some obj] := by
  simp [JsArray.Set]

theorem GetDevList_loop_eq (o : DevListOracle) (sk : Int) :
    ∀ (dev_req : List Nat) (i : Nat) (a : JsArray) (tr : List Effect),
      GetDevList.loop o sk dev_req i a.length a tr
        = (a ++ (successfulFrom o i dev_req).map (fun di => some (StoreDevInfo di)),
           tr ++ dev_req.map (Effect.ioctl_devinfo sk)) := by
  intro dev_req
  induction dev_req with
  | nil => intro i a tr; simp [GetDevList.loop, successfulFrom]
  | cons id rest ih =>
    intro i a tr
    cases hq : o.devinfo i id with
    | none =>
      simp only [GetDevList.loop, hq, ih]
      simp [successfulFrom, List.enumFrom_cons, List.filterMap_cons, hq]
    | some di =>
      have hlen : a.length + 1 = (a ++ [some (StoreDevInfo di)]).length := by simp
      simp only [GetDevList.loop, hq, JsArray_Set_length]
      rw [hlen, ih]
      simp [successfulFrom, List.enumFrom_cons, List.filterMap_cons, hq]

/-- C9: when the socket is created and the enumeration request succeeds, `getDevList`
returns an array (never a number) that holds, at positions `0, 1, ..., k-1` without
holes, the objects of exactly the controllers whose info request succeeded, in the
order of enumeration, whatever the number of controllers and whichever requests fail;
the effects end with the release of the list and the close of the socket, which is the
only close.  When the enumeration request fails the socket is closed too and a number
is returned; when no socket could be created there is none to close. -/
theorem C9_getDevList (o : DevListOracle) :
    (∀ dev_req : List Nat, 0 ≤ o.socket → o.devlist = some dev_req →
      HciSocket.GetDevList o
        = (.array ((successfulFrom o 0 dev_req).map (fun di => some (StoreDevInfo di))),
           [.sys_socket o.socket, .malloc o.malloc, .ioctl_devlist o.socket HCI_MAX_DEV]
             ++ dev_req.map (Effect.ioctl_devinfo o.socket)
             ++ [.free o.malloc, .sys_close o.socket]) ∧
      (HciSocket.GetDevList o).2.countP Effect.isClose = 1 ∧
      successfulFrom o 0 dev_req = dev_req.enum.filterMap (fun p => o.devinfo p.1 p.2)) ∧
    (0 ≤ o.socket → o.devlist = none →
      HciSocket.GetDevList o
        = (.number (-o.errno),
           [.sys_socket o.socket, .malloc o.malloc, .ioctl_devlist o.socket HCI_MAX_DEV,
            .free o.malloc, .sys_close o.socket])) ∧
    (o.socket < 0 →
      HciSocket.GetDevList o = (.number (-o.errno), [.sys_socket o.socket])) := by
  refine ⟨?_, ?_, ?_⟩
  · intro dev_req hs hd
    have hloop := GetDevList_loop_eq o o.socket dev_req 0 []
      [.sys_socket o.socket, .malloc o.malloc, .ioctl_devlist o.socket HCI_MAX_DEV]
    simp only [List.length_nil, List.nil_append] at hloop
    have hrun : HciSocket.GetDevList o
        = (.array ((successfulFrom o 0 dev_req).map (fun di => some (StoreDevInfo di))),
           [.sys_socket o.socket, .malloc o.malloc, .ioctl_devlist o.socket HCI_MAX_DEV]
             ++ dev_req.map (Effect.ioctl_devinfo o.socket)
             ++ [.free o.malloc, .sys_close o.socket]) := by
      simp only [HciSocket.GetDevList, not_lt.mpr hs, hd, if_false, hloop]
    refine ⟨hrun, ?_, rfl⟩
    · rw [hrun]
      simp only [List.countP_append, List.countP_cons, List.countP_nil, Effect.isClose]
      have : (dev_req.map (Effect.ioctl_devinfo o.socket)).countP Effect.isClose = 0 := by
        rw [List.countP_eq_zero]
        intro e he
        obtain ⟨id, _, rfl⟩ := List.mem_map.mp he
        simp [Effect.isClose]
      simp [this]
  · intro hs hd
    simp [HciSocket.GetDevList, not_lt.mpr hs, hd]
  · intro hs
    simp [HciSocket.GetDevList, hs]

theorem C9_getDevList_witness :
    (HciSocket.GetDevList threeControllers).1
      = .array
          [some (StoreDevInfo { dev_id := 0, name := [104, 99, 105, 0, 0, 0, 0, 0],
                                bdaddr := ![1, 2, 3, 4, 5, 6], flags := 5, type := 1 }),
           some (StoreDevInfo { dev_id := 2, name := [104, 99, 105, 0, 0, 0, 0, 0],
                                bdaddr := ![1, 2, 3, 4, 5, 6], flags := 5, type := 1 })] :=
  (congrArg Prod.fst
    ((C9_getDevList threeControllers).1 [0, 1, 2] (by decide) rfl).1).trans rfl

end Hci
